import Mathlib

/-!
Verification of the HPA external-metrics processing slice
(`pkg/util/kubernetes/hpa/hpa.go`): staleness-driven refresh
(`UpdateExternalMetrics`), garbage collection of orphaned records
(`ComputeDeleteExternalMetrics`), and extraction of external metric
specs from autoscaler objects (`ProcessHPAs`).

The external metrics provider is an injected collaborator: the Go code
reaches it through `Processor.queryDatadogExternal`, which lives outside
this slice.  It is abstracted here as a function parameter `query`
returning a value and an optional error, mirroring the Go
`(int64, error)` return shape.  Wall-clock time (`metav1.Now().Unix()`)
is abstracted as an integer parameter `now`; the configured maximum age
(`int64(p.externalMaxAge.Seconds())`) as an integer `maxAge`.
-/

/-- `custommetrics.ObjectReference`: the owner triple of a record. -/
structure ObjectReference where
  Name : String
  Namespace : String
  UID : String
deriving DecidableEq

/-- `custommetrics.ExternalMetricValue`: one cached external metric record.
Go `Labels` is a `map[string]string`; it is carried here as an association
list, never inspected beyond being passed to the provider query. -/
structure ExternalMetricValue where
  MetricName : String
  Labels : List (String × String)
  Value : Int
  Valid : Bool
  Timestamp : Int
  HPA : ObjectReference
deriving DecidableEq

/-- The injected provider query (Go `Processor.queryDatadogExternal`,
outside this slice): metric name and labels to a value and an optional
error, mirroring Go multiple return `(int64, error)`. -/
abbrev ProviderQuery := String → List (String × String) → Int × Option String

/-- Go `Processor.validateExternalMetric`: query the provider; on error
return the partial value with `valid=false` and the error, on success the
value with `valid=true` and no error. -/
def validateExternalMetric (query : ProviderQuery) (metricName : String)
    (labels : List (String × String)) : Int × Bool × Option String :=
  let r := query metricName labels
  match r.2 with
  | some e => (r.1, false, some e)
  | none => (r.1, true, none)

/-- The freshness test of `UpdateExternalMetrics`, line
`if metav1.Now().Unix()-em.Timestamp <= maxAge && em.Valid`. -/
def isFresh (maxAge now : Int) (em : ExternalMetricValue) : Bool :=
  decide (now - em.Timestamp ≤ maxAge) && em.Valid

/-- The loop body of `UpdateExternalMetrics` for a non-fresh record:
`em.Valid = false; em.Timestamp = metav1.Now().Unix();
em.Value, em.Valid, err = p.validateExternalMetric(em.MetricName, em.Labels)`. -/
def refreshRecord (now : Int) (query : ProviderQuery)
    (em : ExternalMetricValue) : ExternalMetricValue :=
  let em1 := { em with Valid := false, Timestamp := now }
  let r := validateExternalMetric query em1.MetricName em1.Labels
  { em1 with Value := r.1, Valid := r.2.1 }

/-- One iteration of the `UpdateExternalMetrics` loop: `none` when the
record is fresh (the `continue` branch), otherwise the refreshed copy
that is appended to `updated`. -/
def updateStep (maxAge now : Int) (query : ProviderQuery)
    (em : ExternalMetricValue) : Option ExternalMetricValue :=
  if isFresh maxAge now em then none
  else some (refreshRecord now query em)

/-- Go `Processor.UpdateExternalMetrics`: the returned `updated` slice.
The provider error is logged (`log.Debugf`) and dropped; the function
returns only the record list, with no error in its signature. -/
def UpdateExternalMetrics (maxAge now : Int) (query : ProviderQuery)
    (emList : List ExternalMetricValue) : List ExternalMetricValue :=
  emList.filterMap (updateStep maxAge now query)

/-- The `UpdateExternalMetrics` loop with the input slice made explicit:
`for _, em := range emList` binds `em` to a copy of each element and the
loop never assigns to `emList`, so each source element is kept as is in
the first component while the refreshed copies accumulate in the second
(the returned `updated`). -/
def updatePass (maxAge now : Int) (query : ProviderQuery) :
    List ExternalMetricValue → List ExternalMetricValue × List ExternalMetricValue
  | [] => ([], [])
  | em :: rest =>
    let tail := updatePass maxAge now query rest
    match updateStep maxAge now query em with
    | none => (em :: tail.1, tail.2)
    | some em2 => (em :: tail.1, em2 :: tail.2)

/-- The `Timestamp` a record holds after one `UpdateExternalMetrics`
pass: unchanged when fresh, otherwise the refreshed copy's timestamp. -/
def timestampAfter (maxAge now : Int) (query : ProviderQuery)
    (em : ExternalMetricValue) : Int :=
  match updateStep maxAge now query em with
  | none => em.Timestamp
  | some em2 => em2.Timestamp

/-- One kubernetes `ExternalMetricSource`: the payload of an
"external"-typed metric spec (`External.MetricName`,
`External.MetricSelector.MatchLabels`). -/
structure ExternalMetricSource where
  MetricName : String
  MatchLabels : List (String × String)
deriving DecidableEq

/-- One entry of `hpa.Spec.Metrics`, tagged by `metricSpec.Type`
(a string-valued source-type discriminator in Go): either the supported
`ExternalMetricSourceType` with its payload, or any other source type,
carried with its type string. -/
inductive MetricSpec where
  | external (src : ExternalMetricSource)
  | other (sourceType : String)
deriving DecidableEq

/-- `autoscalingv2.HorizontalPodAutoscaler`, restricted to the fields the
slice reads: `Name`, `Namespace`, `UID` and `Spec.Metrics`. -/
structure HorizontalPodAutoscaler where
  Name : String
  Namespace : String
  UID : String
  Metrics : List MetricSpec
deriving DecidableEq

/-- Go `ComputeDeleteExternalMetrics`: build the set of live `UID`s from
the HPA list, and keep every record whose owner `UID` is not in it. -/
def ComputeDeleteExternalMetrics (list : List HorizontalPodAutoscaler)
    (emList : List ExternalMetricValue) : List ExternalMetricValue :=
  let uids := list.map (fun hpa => hpa.UID)
  emList.filter (fun em => !(uids.contains em.HPA.UID))

/-- A log call made by the slice: `log.Errorf` or `log.Debugf`. -/
inductive LogEntry where
  | errorf (msg : String)
  | debugf (msg : String)
deriving DecidableEq

/-- The record built in the `ExternalMetricSourceType` case of
`ProcessHPAs`: owner and timestamp from the HPA and clock, then
`m.Value, m.Valid, err = p.validateExternalMetric(m.MetricName, m.Labels)`. -/
def mkExternalRecord (now : Int) (query : ProviderQuery)
    (owner : ObjectReference) (src : ExternalMetricSource) : ExternalMetricValue :=
  let r := validateExternalMetric query src.MetricName src.MatchLabels
  { MetricName := src.MetricName, Labels := src.MatchLabels,
    Value := r.1, Valid := r.2.1, Timestamp := now, HPA := owner }

/-- The `for _, metricSpec := range hpa.Spec.Metrics` loop of
`ProcessHPAs`: the `external` case appends one validated record (logging
at debug level if the provider errored), the default case only logs the
unsupported type. -/
def processMetricSpecs (now : Int) (query : ProviderQuery)
    (owner : ObjectReference) :
    List MetricSpec → List ExternalMetricValue × List LogEntry
  | [] => ([], [])
  | MetricSpec.external src :: rest =>
    let tail := processMetricSpecs now query owner rest
    let m := mkExternalRecord now query owner src
    let logs :=
      match (validateExternalMetric query src.MetricName src.MatchLabels).2.2 with
      | some e =>
        [LogEntry.debugf ("Could not fetch the external metric " ++
          src.MetricName ++ " from Datadog, metric is no longer valid: " ++ e)]
      | none => []
    (m :: tail.1, logs ++ tail.2)
  | MetricSpec.other t :: rest =>
    let tail := processMetricSpecs now query owner rest
    (tail.1, LogEntry.debugf ("Unsupported metric type " ++ t) :: tail.2)

/-- Go `Processor.ProcessHPAs`: an empty `Spec.Metrics` list is reported
with `log.Errorf` and yields no records; otherwise the metric-spec loop
runs.  Returned alongside the records is the sequence of log calls made;
the Go function itself returns only the record slice, with no error. -/
def ProcessHPAs (now : Int) (query : ProviderQuery)
    (hpa : HorizontalPodAutoscaler) :
    List ExternalMetricValue × List LogEntry :=
  if hpa.Metrics = [] then
    ([], [LogEntry.errorf ("Error processing " ++ hpa.Namespace ++ "/" ++
      hpa.Name ++ " external metrics, empty list")])
  else
    processMetricSpecs now query
      { Name := hpa.Name, Namespace := hpa.Namespace, UID := hpa.UID }
      hpa.Metrics

/-- The subsequence of "external"-typed entries of a metric-spec list,
in spec order. -/
def externalEntries : List MetricSpec → List ExternalMetricSource
  | [] => []
  | MetricSpec.external src :: rest => src :: externalEntries rest
  | MetricSpec.other _ :: rest => externalEntries rest

/-- A provider stub that always answers value `0` with no error. -/
def qZero : ProviderQuery := fun _ _ => (0, none)

/-- A provider stub that always fails with a query error. -/
def qFail : ProviderQuery := fun _ _ => (0, some "query error")

/-- An owner reference with the given uid. -/
def refWith (u : String) : ObjectReference :=
  { Name := "hpa-" ++ u, Namespace := "default", UID := u }

/-- A record owned by the policy object with uid `u`. -/
def emOwnedBy (u : String) : ExternalMetricValue :=
  { MetricName := "m", Labels := [], Value := 1, Valid := true,
    Timestamp := 0, HPA := refWith u }

/-- A live policy object with uid `u` and no metric specs. -/
def hpaWith (u : String) : HorizontalPodAutoscaler :=
  { Name := "hpa-" ++ u, Namespace := "default", UID := u, Metrics := [] }

/-- A valid record whose `Timestamp` equals the pass's clock `10`. -/
def emFreshNow : ExternalMetricValue :=
  { MetricName := "m", Labels := [], Value := 7, Valid := true,
    Timestamp := 10, HPA := refWith "A" }

/-- An invalid record whose `Timestamp` `20` lies in the future of the
pass's clock `10`. -/
def emFuture : ExternalMetricValue :=
  { MetricName := "m", Labels := [], Value := 7, Valid := false,
    Timestamp := 20, HPA := refWith "A" }

/-- An invalid record with `Timestamp` `0`, due for revalidation. -/
def emStale : ExternalMetricValue :=
  { MetricName := "m", Labels := [], Value := 7, Valid := false,
    Timestamp := 0, HPA := refWith "A" }

/-- A policy object declaring one "external" metric spec and one
spec of another source type. -/
def hpaMixed : HorizontalPodAutoscaler :=
  { Name := "hpa-mixed", Namespace := "default", UID := "X",
    Metrics := [MetricSpec.external { MetricName := "m1", MatchLabels := [] },
                MetricSpec.other "Pods"] }

/-- A policy object with an empty metric-spec list. -/
def hpaEmpty : HorizontalPodAutoscaler :=
  { Name := "hpa-empty", Namespace := "default", UID := "Y", Metrics := [] }

/-- Every record for which `updateStep` yields `none` (the `continue`
branch of the loop) is skipped identically whatever the provider is. -/
theorem updateStep_none_iff (maxAge now : Int) (q3 : ProviderQuery)
    (em : ExternalMetricValue) :
    updateStep maxAge now q3 em = none ↔
      (em.Valid = true ∧ now - em.Timestamp ≤ maxAge) := by
  unfold updateStep isFresh
  by_cases hv : em.Valid <;>
    by_cases hle : now - em.Timestamp ≤ maxAge <;>
      simp [hv, hle]

/-- C1: a record passed to `UpdateExternalMetrics` is skipped — no
provider call, no mutation — iff it is valid and `now - lastUpdated`
is at most `maxAge`; the skip is independent of the provider, a valid
record with `lastUpdated = now - maxAge` is fresh, and a record with
`lastUpdated = now - maxAge - 1` is not. -/
theorem freshness_boundary (maxAge now : Int) (q : ProviderQuery)
    (em : ExternalMetricValue) :
    (updateStep maxAge now q em = none ↔
      (em.Valid = true ∧ now - em.Timestamp ≤ maxAge)) ∧
    (∀ q2 : ProviderQuery, updateStep maxAge now q em = none →
      updateStep maxAge now q2 em = none) ∧
    (em.Valid = true → em.Timestamp = now - maxAge →
      updateStep maxAge now q em = none) ∧
    (em.Timestamp = now - maxAge - 1 → updateStep maxAge now q em ≠ none) := by
  refine ⟨updateStep_none_iff maxAge now q em,
    fun q2 h2 => (updateStep_none_iff maxAge now q2 em).mpr
      ((updateStep_none_iff maxAge now q em).mp h2), ?_, ?_⟩
  · intro hv ht
    exact (updateStep_none_iff maxAge now q em).mpr ⟨hv, by omega⟩
  · intro ht hcontra
    have h2 := ((updateStep_none_iff maxAge now q em).mp hcontra).2
    omega

/-- C1 witness: with `maxAge = 9`, a valid record stamped at
`now - 9` is skipped and a record stamped at `now - 10` is not. -/
theorem freshness_boundary_witness :
    updateStep 9 19 qZero emFreshNow = none ∧
    updateStep 9 10 qZero emStale ≠ none :=
  ⟨(freshness_boundary 9 19 qZero emFreshNow).2.2.1 rfl (by decide),
   (freshness_boundary 9 10 qZero emStale).2.2.2 (by decide)⟩

/-- C2 counterexample: with `maxAge = 0` and `now = 10`, the valid record
stamped `10` satisfies `now - Timestamp <= 0 && Valid`, so the code treats
it as fresh — `UpdateExternalMetrics` skips it with no Validator call,
contrary to the claim that nothing is fresh when `maxAge` is zero. -/
theorem maxAgeZero_counterexample :
    isFresh 0 10 emFreshNow = true ∧
    UpdateExternalMetrics 0 10 qZero [emFreshNow] = [] := by
  exact ⟨by decide, by decide⟩

/-- C2 amended: with `maxAge = 0`, a record is skipped as fresh iff it is
valid and its `Timestamp` is at least `now`; every record whose
`Timestamp` is strictly in the past is revalidated by the Validator. -/
theorem maxAgeZero_amended (now : Int) (q : ProviderQuery)
    (em : ExternalMetricValue) :
    (updateStep 0 now q em = none ↔ (em.Valid = true ∧ now ≤ em.Timestamp)) ∧
    (em.Timestamp < now → updateStep 0 now q em = some (refreshRecord now q em)) := by
  constructor
  · rw [updateStep_none_iff 0 now q em]
    constructor
    · intro h
      exact ⟨h.1, by omega⟩
    · intro h
      exact ⟨h.1, by omega⟩
  · intro hlt
    unfold updateStep isFresh
    have hnle : ¬ (now - em.Timestamp ≤ (0 : Int)) := by omega
    simp [hnle]

/-- C2 amended witness: at `now = 10` the invalid record stamped `0` is
revalidated. -/
theorem maxAgeZero_amended_witness :
    updateStep 0 10 qZero emStale = some (refreshRecord 10 qZero emStale) :=
  (maxAgeZero_amended 10 qZero emStale).2 (by decide)

/-- C3: a non-fresh record is replaced by the refreshed copy: its
timestamp is set to `now` unconditionally, its value and validity are
exactly the Validator's result, a provider error forces `Valid = false`,
the identifying fields are kept, and no error escapes —
`UpdateExternalMetrics` returns only a record list. -/
theorem revalidation_overwrites (maxAge now : Int) (q : ProviderQuery)
    (em : ExternalMetricValue) (h : isFresh maxAge now em = false) :
    updateStep maxAge now q em = some (refreshRecord now q em) ∧
    (refreshRecord now q em).Timestamp = now ∧
    (refreshRecord now q em).Value =
      (validateExternalMetric q em.MetricName em.Labels).1 ∧
    (refreshRecord now q em).Valid =
      (validateExternalMetric q em.MetricName em.Labels).2.1 ∧
    ((q em.MetricName em.Labels).2 ≠ none →
      (refreshRecord now q em).Valid = false) ∧
    (refreshRecord now q em).MetricName = em.MetricName ∧
    (refreshRecord now q em).Labels = em.Labels ∧
    (refreshRecord now q em).HPA = em.HPA := by
  refine ⟨?_, rfl, rfl, rfl, ?_, rfl, rfl, rfl⟩
  · unfold updateStep
    simp [h]
  · intro herr
    cases hq : (q em.MetricName em.Labels).2 with
    | none => exact absurd hq herr
    | some e => simp [refreshRecord, validateExternalMetric, hq]

/-- C3 witness: a stale record revalidated against a failing provider at
`now = 100` keeps flowing, gets `Timestamp = 100` and `Valid = false`. -/
theorem revalidation_overwrites_witness :
    updateStep 30 100 qFail emStale = some (refreshRecord 100 qFail emStale) ∧
    (refreshRecord 100 qFail emStale).Timestamp = 100 ∧
    (refreshRecord 100 qFail emStale).Valid = false := by
  have h := revalidation_overwrites 30 100 qFail emStale (by decide)
  exact ⟨h.1, h.2.1, h.2.2.2.2.1 (by decide)⟩

/-- C4: `ComputeDeleteExternalMetrics` returns a record iff it is one of
the stored records and its owner uid is absent from the live policy uids;
with live uids A and B over records owned by A, B and C, exactly the
record owned by C is returned. -/
theorem computeDelete_membership (list : List HorizontalPodAutoscaler)
    (emList : List ExternalMetricValue) :
    (∀ em, em ∈ ComputeDeleteExternalMetrics list emList ↔
      (em ∈ emList ∧ em.HPA.UID ∉ list.map (fun hpa => hpa.UID))) ∧
    ComputeDeleteExternalMetrics [hpaWith "A", hpaWith "B"]
      [emOwnedBy "A", emOwnedBy "B", emOwnedBy "C"] = [emOwnedBy "C"] := by
  constructor
  · intro em
    unfold ComputeDeleteExternalMetrics
    rw [List.mem_filter]
    simp [List.elem_iff]
  · decide

/-- C4 witness: the record owned by C is in the deletion list computed
from live uids A and B. -/
theorem computeDelete_membership_witness :
    emOwnedBy "C" ∈ ComputeDeleteExternalMetrics [hpaWith "A", hpaWith "B"]
      [emOwnedBy "A", emOwnedBy "B", emOwnedBy "C"] :=
  ((computeDelete_membership [hpaWith "A", hpaWith "B"]
      [emOwnedBy "A", emOwnedBy "B", emOwnedBy "C"]).1 (emOwnedBy "C")).mpr
    ⟨by decide, by decide⟩

/-- C5: `ComputeDeleteExternalMetrics` is a pure function of its two
inputs — two calls on the same live list and record list return the same
deletion list — and every returned record is one of the stored input
records, unmodified. -/
theorem computeDelete_pure_idempotent (list : List HorizontalPodAutoscaler)
    (emList : List ExternalMetricValue) :
    ComputeDeleteExternalMetrics list emList =
      ComputeDeleteExternalMetrics list emList ∧
    ∀ em ∈ ComputeDeleteExternalMetrics list emList, em ∈ emList := by
  refine ⟨rfl, fun em hm => ?_⟩
  unfold ComputeDeleteExternalMetrics at hm
  exact (List.mem_filter.mp hm).1

/-- C5 witness: the record owned by C, returned by the concrete GC call,
is one of the three stored records. -/
theorem computeDelete_pure_idempotent_witness :
    emOwnedBy "C" ∈ [emOwnedBy "A", emOwnedBy "B", emOwnedBy "C"] :=
  (computeDelete_pure_idempotent [hpaWith "A", hpaWith "B"]
    [emOwnedBy "A", emOwnedBy "B", emOwnedBy "C"]).2 (emOwnedBy "C") (by decide)

/-- C6: the list returned by `UpdateExternalMetrics` is exactly the
refreshed copies of the non-fresh input records, in input order. -/
theorem refresh_output_exact (maxAge now : Int) (q : ProviderQuery)
    (emList : List ExternalMetricValue) :
    UpdateExternalMetrics maxAge now q emList =
      (emList.filter (fun em => !(isFresh maxAge now em))).map
        (refreshRecord now q) := by
  induction emList with
  | nil => rfl
  | cons em rest ih =>
    simp only [UpdateExternalMetrics] at ih ⊢
    by_cases hf : isFresh maxAge now em <;>
      simp [List.filterMap_cons, List.filter_cons, updateStep, hf, ih]

/-- C6 witness: the concrete pass at `maxAge = 30`, `now = 10` over a
fresh and a stale record returns exactly the refreshed stale record. -/
theorem refresh_output_exact_witness :
    UpdateExternalMetrics 30 10 qZero [emFreshNow, emStale] =
      (([emFreshNow, emStale]).filter (fun em => !(isFresh 30 10 em))).map
        (refreshRecord 10 qZero) :=
  refresh_output_exact 30 10 qZero [emFreshNow, emStale]

/-- The record component of the `ProcessHPAs` loop: one record per
"external"-typed spec entry, in spec order; other entries contribute
nothing to it. -/
theorem processMetricSpecs_records (now : Int) (q : ProviderQuery)
    (owner : ObjectReference) (ms : List MetricSpec) :
    (processMetricSpecs now q owner ms).1 =
      (externalEntries ms).map (mkExternalRecord now q owner) := by
  induction ms with
  | nil => rfl
  | cons s rest ih =>
    cases s <;> simp [processMetricSpecs, externalEntries, ih]

/-- C7: `ProcessHPAs` produces exactly one record per "external"-typed
metric spec entry, in spec order — entries of other source types yield no
record and no error — and the mixed policy with one "external" and one
other-typed entry yields exactly the one record of its "external" entry. -/
theorem processHPAs_external_only (now : Int) (q : ProviderQuery)
    (hpa : HorizontalPodAutoscaler) :
    (ProcessHPAs now q hpa).1 =
      (externalEntries hpa.Metrics).map (mkExternalRecord now q
        { Name := hpa.Name, Namespace := hpa.Namespace, UID := hpa.UID }) ∧
    (ProcessHPAs 0 qZero hpaMixed).1 =
      [mkExternalRecord 0 qZero
        { Name := "hpa-mixed", Namespace := "default", UID := "X" }
        { MetricName := "m1", MatchLabels := [] }] := by
  constructor
  · unfold ProcessHPAs
    by_cases h : hpa.Metrics = []
    · simp [h, externalEntries]
    · simp [h, processMetricSpecs_records]
  · rfl

/-- C7 witness: the mixed policy yields exactly one record. -/
theorem processHPAs_external_only_witness :
    ((ProcessHPAs 0 qZero hpaMixed).1).length = 1 := by
  rw [(processHPAs_external_only 0 qZero hpaMixed).2]
  rfl

/-- C8: a policy whose metric-spec list is empty makes `ProcessHPAs`
log exactly one `Errorf` entry and return no records — it fabricates
nothing and cannot panic, being a total function. -/
theorem emptyMetrics_error (now : Int) (q : ProviderQuery)
    (hpa : HorizontalPodAutoscaler) (h : hpa.Metrics = []) :
    (ProcessHPAs now q hpa).1 = [] ∧
    (ProcessHPAs now q hpa).2 =
      [LogEntry.errorf ("Error processing " ++ hpa.Namespace ++ "/" ++
        hpa.Name ++ " external metrics, empty list")] := by
  unfold ProcessHPAs
  simp [h]

/-- C8 witness: the concrete empty-spec policy yields no records and the
one error log entry. -/
theorem emptyMetrics_error_witness :
    (ProcessHPAs 0 qZero hpaEmpty).1 = [] ∧
    (ProcessHPAs 0 qZero hpaEmpty).2 =
      [LogEntry.errorf ("Error processing " ++ "default" ++ "/" ++
        "hpa-empty" ++ " external metrics, empty list")] :=
  emptyMetrics_error 0 qZero hpaEmpty rfl

/-- C9 counterexample: an invalid record stamped in the future of the
pass clock (`Timestamp = 20`, `now = 10`) is revalidated and its
timestamp decreases to `10`, so `lastUpdated` is not monotonically
non-decreasing for arbitrary records. -/
theorem timestamp_decreases_counterexample :
    timestampAfter 30 10 qZero emFuture < emFuture.Timestamp := by
  decide

/-- C9 amended: for any record whose `Timestamp` is not in the future of
the pass clock (`Timestamp ≤ now`), the timestamp after an
`UpdateExternalMetrics` pass is at least the timestamp before it. -/
theorem timestamp_monotone (maxAge now : Int) (q : ProviderQuery)
    (em : ExternalMetricValue) (h : em.Timestamp ≤ now) :
    em.Timestamp ≤ timestampAfter maxAge now q em := by
  unfold timestampAfter updateStep
  by_cases hf : isFresh maxAge now em
  · simp [hf]
  · simp only [hf, Bool.false_eq_true, if_false]
    show em.Timestamp ≤ (refreshRecord now q em).Timestamp
    exact h

/-- C9 amended witness: the stale record stamped `0` ends the pass at
`now = 10` with timestamp at least `0`. -/
theorem timestamp_monotone_witness :
    emStale.Timestamp ≤ timestampAfter 30 10 qZero emStale :=
  timestamp_monotone 30 10 qZero emStale (by decide)

/-- C10: an `UpdateExternalMetrics` pass leaves every element of the
input slice exactly as it was — the loop ranges over copies — and the
refreshed data appears only in the returned `updated` list. -/
theorem refresh_preserves_input (maxAge now : Int) (q : ProviderQuery)
    (emList : List ExternalMetricValue) :
    (updatePass maxAge now q emList).1 = emList ∧
    (updatePass maxAge now q emList).2 =
      UpdateExternalMetrics maxAge now q emList := by
  induction emList with
  | nil => exact ⟨rfl, rfl⟩
  | cons em rest ih =>
    simp only [UpdateExternalMetrics] at ih ⊢
    cases hstep : updateStep maxAge now q em <;>
      simp [updatePass, hstep, List.filterMap_cons, ih.1, ih.2]

/-- C10 witness: the concrete pass over a fresh and a stale record hands
back the input slice unchanged. -/
theorem refresh_preserves_input_witness :
    (updatePass 30 10 qZero [emFreshNow, emStale]).1 = [emFreshNow, emStale] :=
  (refresh_preserves_input 30 10 qZero [emFreshNow, emStale]).1
